import Mathlib

/-!
Verification of the gpu-price scrapers against their specification.

The Python sources under scrutiny are shallowly embedded below:
pure helper functions become Lean functions on `String` / `List Char`,
floating-point results of the extractors are modelled exactly as `ℚ`
(every extractor parses a decimal numeral, so the value is rational),
and fallible operations return `Option` / `Except`.  HTML documents are
modelled at the level the parsers consume them: a list of candidate
records carrying the text fragments the BeautifulSoup selectors return.
-/

namespace GpuPrice

/-! Primitives shared by all scrapers: Python whitespace, `str.strip`,
`re.sub(r"\s+", " ", s)`, `str.lower`, substring tests, and the small
family of regular-expression searches the sources compile. -/

/-- Whitespace as matched by Python's `\s` on the ASCII range. -/
def pyIsSpace (c : Char) : Bool :=
  c = ' ' || c = '\t' || c = '\n' || c = '\r' || c = Char.ofNat 11 || c = Char.ofNat 12

/-- Model of Python `str.strip()`: drop leading and trailing whitespace. -/
def stripChars (l : List Char) : List Char :=
  ((l.dropWhile pyIsSpace).reverse.dropWhile pyIsSpace).reverse

/-- Auxiliary for `collapseWs`: the flag records whether the previous
character was whitespace (so a run is emitted as a single space). -/
def collapseAux : Bool → List Char → List Char
  | _, [] => []
  | prevWs, c :: cs =>
    if pyIsSpace c then
      if prevWs then collapseAux true cs else ' ' :: collapseAux true cs
    else c :: collapseAux false cs

/-- Model of `re.sub(r"\s+", " ", s)`: each maximal whitespace run becomes
one space. -/
def collapseWs (l : List Char) : List Char := collapseAux false l

/-- Model of `_clean_text` as written in `crusoe.py`:
`re.sub(r"\s+", " ", s).strip()` (collapse, then strip). -/
def pyCleanCollapseStrip (s : String) : String := ⟨stripChars (collapseWs s.data)⟩

/-- Model of `_clean_text` / `_clean` as written in `coreweave.py`,
`lambdalabs.py`, `nebius.py` and `runpod.py`:
`re.sub(r"\s+", " ", s.strip())` (strip, then collapse). -/
def pyCleanStripCollapse (s : String) : String := ⟨collapseWs (stripChars s.data)⟩

/-- Model of Python `str.lower()` on the ASCII range. -/
def lowerStr (s : String) : String := ⟨s.data.map Char.toLower⟩

/-- Decide whether `p` is a leading segment of the second list. -/
def startsWithL : List Char → List Char → Bool
  | [], _ => true
  | _ :: _, [] => false
  | p :: ps, c :: cs => p = c && startsWithL ps cs

/-- Model of Python's `pat in s` substring test. -/
def containsL (pat : List Char) : List Char → Bool
  | [] => pat.isEmpty
  | c :: cs => startsWithL pat (c :: cs) || containsL pat cs

/-- Substring test on strings, modelling Python `pat in s`. -/
def strContains (s pat : String) : Bool := containsL pat.data s.data

/-- Numeric value of a decimal digit character. -/
def digitVal (c : Char) : Nat := c.toNat - 48

/-- Value of a digit run, as `int(...)` computes it. -/
def digitsToNat (ds : List Char) : Nat := ds.foldl (fun a c => 10 * a + digitVal c) 0

/-- Exact value of the decimal numeral `intPart.fracPart`, the number that
CPython's `float(...)` is asked to represent. -/
def numeralVal (intPart fracPart : List Char) : ℚ :=
  mkRat (digitsToNat intPart * 10 ^ fracPart.length + digitsToNat fracPart)
    (10 ^ fracPart.length)

/-- Match `\d+(?:\.\d+)?` anchored at the head of `l`; return the value and
the remaining input.  The greedy/backtracking behaviour of the Python
pattern is deterministic here: shortening a digit run always leaves a digit
in front, which none of the follow-up patterns in the sources can consume. -/
def numAt (l : List Char) : Option (ℚ × List Char) :=
  let d := l.takeWhile Char.isDigit
  let r := l.dropWhile Char.isDigit
  if d.isEmpty then none
  else
    match r with
    | '.' :: r2 =>
      let f := r2.takeWhile Char.isDigit
      let r3 := r2.dropWhile Char.isDigit
      if f.isEmpty then some (numeralVal d [], r)
      else some (numeralVal d f, r3)
    | _ => some (numeralVal d [], r)

/-- Model of `re.search(r'(\d+(?:\.\d+)?)\s*U', s)` for a literal unit
marker `U` (e.g. `GB`, `TB`); the patterns in the sources are
case-sensitive.  Returns the numeral group. -/
def unitNumSearch (unit : List Char) : List Char → Option ℚ
  | [] => none
  | c :: cs =>
    match numAt (c :: cs) with
    | some (v, rest) =>
      if startsWithL unit (rest.dropWhile pyIsSpace) then some v
      else unitNumSearch unit cs
    | none => unitNumSearch unit cs

/-- Model of `re.search(r'\$\s*(\d+(?:\.\d+)?)', s)`: a dollar sign,
optional whitespace, then the numeral group. -/
def dollarNumSearch : List Char → Option ℚ
  | [] => none
  | c :: cs =>
    if c = '$' then
      match numAt (cs.dropWhile pyIsSpace) with
      | some (v, _) => some v
      | none => dollarNumSearch cs
    else dollarNumSearch cs

/-- Match `\d*\.?\d+` anchored at the head of `l` (the unsigned body of
`_NUM_RE`). -/
def plainNumAt (l : List Char) : Option ℚ :=
  let d := l.takeWhile Char.isDigit
  let r := l.dropWhile Char.isDigit
  match r with
  | '.' :: r2 =>
    let f := r2.takeWhile Char.isDigit
    if f.isEmpty then (if d.isEmpty then none else some (numeralVal d []))
    else some (numeralVal d f)
  | _ => if d.isEmpty then none else some (numeralVal d [])

/-- Match `[-+]?\d*\.?\d+` anchored at the head of `l`. -/
def signedNumAt (l : List Char) : Option ℚ :=
  match l with
  | '+' :: r => plainNumAt r
  | '-' :: r => (plainNumAt r).map Rat.neg
  | _ => plainNumAt l

/-- Model of `re.search(r'[-+]?\d*\.?\d+', s)` (`_NUM_RE` in `runpod.py`,
and `_parse_float` in `lambdalabs.py` / `nebius.py`). -/
def signedNumSearch : List Char → Option ℚ
  | [] => none
  | c :: cs =>
    match signedNumAt (c :: cs) with
    | some v => some v
    | none => signedNumSearch cs

/-- Model of `re.search(r'(\d+)', s)` followed by `int(...)` on the group:
the first maximal digit run, as a natural number. -/
def digitsSearch : List Char → Option Nat
  | [] => none
  | c :: cs =>
    if c.isDigit then some (digitsToNat ((c :: cs).takeWhile Char.isDigit))
    else digitsSearch cs

/-- Python `int(float(x))` for a non-negative rational: truncation. -/
def pyIntOfFloat (q : ℚ) : Int := if 0 ≤ q then q.floor else q.ceil

/-- First hit of `f` over a list, modelling a `for` loop that `break`s on
the first successful extraction. -/
def firstSome {α β : Type} (f : α → Option β) : List α → Option β
  | [] => none
  | a :: as =>
    match f a with
    | some b => some b
    | none => firstSome f as

/-! CSV output, modelling Python's `csv.DictWriter` with the default
QUOTE_MINIMAL dialect: a field is quoted when it contains the delimiter, a
quote or a line break, quotes are doubled, `None` is written as the empty
string, and other scalars are written with `str(...)` (the `ri` / `rq`
parameters below stand for that rendering). -/

/-- Check whether a CSV field needs quoting under QUOTE_MINIMAL. -/
def csvNeedsQuote (s : String) : Bool :=
  s.data.any (fun c => c = ',' || c = '"' || c = '\n' || c = '\r')

/-- Double every quote character, as CSV quoting does. -/
def doubleQuotesAux : List Char → List Char
  | [] => []
  | c :: cs => if c = '"' then '"' :: '"' :: doubleQuotesAux cs else c :: doubleQuotesAux cs

/-- Escape one CSV field (QUOTE_MINIMAL). -/
def csvEscape (s : String) : String :=
  if csvNeedsQuote s then "\"" ++ ⟨doubleQuotesAux s.data⟩ ++ "\"" else s

/-- Join escaped fields with the comma delimiter into one CSV line
(`",".join(...)` written as a fold for direct computation). -/
def csvJoin : List String → String
  | [] => ""
  | f :: fs => fs.foldl (fun acc g => acc ++ "," ++ csvEscape g) (csvEscape f)

/-- Render an optional scalar the way `csv` writes it: `None` becomes the
empty string, a present value is rendered with `f` (Python `str`). -/
def optStr {α : Type} (f : α → String) : Option α → String
  | none => ""
  | some a => f a

/-- Model of Python `str.upper()` on the ASCII range. -/
def upperStr (s : String) : String := ⟨s.data.map Char.toUpper⟩

/-- Lookup in the insertion-ordered association list modelling a dict. -/
def assocLookup : List (String × String) → String → Option String
  | [], _ => none
  | (k0, v0) :: rest, k => if k0 = k then some v0 else assocLookup rest k

/-- Python dict assignment `d[k] = v`: update in place when the key exists
(keeping its position), else append at the end. -/
def assocSet : List (String × String) → String → String → List (String × String)
  | [], k, v => [(k, v)]
  | (k0, v0) :: rest, k, v =>
    if k0 = k then (k0, v) :: rest else (k0, v0) :: assocSet rest k v

/-- Python string `<`: lexicographic comparison by code point. -/
def strLtB : List Char → List Char → Bool
  | [], [] => false
  | [], _ :: _ => true
  | _ :: _, [] => false
  | a :: as, b :: bs =>
    if a.val < b.val then true else if b.val < a.val then false else strLtB as bs

/-- Stable insertion used to model Python `list.sort` / `sorted`: the new
element goes after every element the comparison places at or before it. -/
def stableInsert {α : Type} (le : α → α → Bool) (x : α) : List α → List α
  | [] => [x]
  | y :: ys => if le y x then y :: stableInsert le x ys else x :: y :: ys

/-- Stable sort by repeated insertion, processing elements left to right. -/
def stableSortBy {α : Type} (le : α → α → Bool) (l : List α) : List α :=
  l.foldl (fun acc x => stableInsert le x acc) []

/-- Model of CPython `float(s)` restricted to plain decimal literals
`[ws][sign](D | D. | .D | D.D)[ws]`; exponent, `inf`/`nan` and underscore
forms are not modelled (no value in the scraped tables uses them). -/
def pyFloatFull (s : String) : Option ℚ :=
  let t := stripChars s.data
  let sgnNeg := match t with | '-' :: _ => true | _ => false
  let t1 := match t with | '+' :: r => r | '-' :: r => r | _ => t
  let d := t1.takeWhile Char.isDigit
  let r1 := t1.dropWhile Char.isDigit
  let body : Option ℚ :=
    match r1 with
    | [] => if d.isEmpty then none else some (numeralVal d [])
    | '.' :: r2 =>
      let f := r2.takeWhile Char.isDigit
      let rest := r2.dropWhile Char.isDigit
      if rest.isEmpty then
        if d.isEmpty && f.isEmpty then none else some (numeralVal d f)
      else none
    | _ => none
  if sgnNeg then body.map Rat.neg else body

namespace Coreweave

/-- Model of `_clean_text` in `coreweave.py`. -/
def clean_text (s : String) : String := pyCleanStripCollapse s

/-- Model of `_parse_int` in `coreweave.py`: `_INT_RE.match` with the
anchored pattern `^\s*([0-9][0-9,]*)\s*$`, commas stripped from the group. -/
def parse_int (s : String) : Option Int :=
  let t := (clean_text s).data.dropWhile pyIsSpace
  match t with
  | [] => none
  | c :: _ =>
    if c.isDigit then
      let run := t.takeWhile (fun c => c.isDigit || c = ',')
      let rest := t.dropWhile (fun c => c.isDigit || c = ',')
      if rest.all pyIsSpace then some (digitsToNat (run.filter Char.isDigit) : Int)
      else none
    else none

/-- Model of `_PRICE_RE.search` in `coreweave.py`:
`\$?\s*([0-9]+(?:\.[0-9]+)?)` — an optional dollar sign and optional
whitespace, then the numeral group. -/
def price_re_search : List Char → Option ℚ
  | [] => none
  | c :: cs =>
    match numAt ((if c = '$' then cs else c :: cs).dropWhile pyIsSpace) with
    | some (v, _) => some v
    | none => price_re_search cs

/-- Model of `_parse_float` in `coreweave.py`. -/
def parse_float (s : String) : Option ℚ :=
  price_re_search (clean_text s).data

end Coreweave

namespace Denvr

/-- Model of `_parse_float` in `denvr.py`: requires a dollar sign
(`re.search(r'\$\s*(\d+(?:\.\d+)?)', s)`). -/
def parse_float : Option String → Option ℚ
  | none => none
  | some s => if s = "" then none else dollarNumSearch s.data

/-- Model of `_extract_vram_gb` in `denvr.py`. -/
def extract_vram_gb : Option String → Option ℚ
  | none => none
  | some s => if s = "" then none else unitNumSearch "GB".data s.data

/-- Model of `_extract_int` in `denvr.py`. -/
def extract_int : Option String → Option Nat
  | none => none
  | some s => if s = "" then none else digitsSearch s.data

/-- Model of `_extract_storage_tb` in `denvr.py`. -/
def extract_storage_tb : Option String → Option ℚ
  | none => none
  | some s => if s = "" then none else unitNumSearch "TB".data s.data

end Denvr

namespace Lambdalabs

/-- Model of `_clean` in `lambdalabs.py`. -/
def clean (s : String) : String := pyCleanStripCollapse s

/-- Model of `_parse_float` in `lambdalabs.py`: `[-+]?\d*\.?\d+`. -/
def parse_float : Option String → Option ℚ
  | none => none
  | some s => if s = "" then none else signedNumSearch s.data

/-- Model of `_extract_vram_gb` in `lambdalabs.py`. -/
def extract_vram_gb : Option String → Option ℚ
  | none => none
  | some s => if s = "" then none else unitNumSearch "GB".data s.data

/-- Model of `_extract_int` in `lambdalabs.py`. -/
def extract_int : Option String → Option Nat
  | none => none
  | some s => if s = "" then none else digitsSearch s.data

end Lambdalabs

namespace Crusoe

/-- Row schema of `crusoe.py` (`GpuPriceRow`). -/
structure GpuPriceRow where
  provider : String
  product : String
  gpu_count : Option Int := none
  vram_gb : Option Int := none
  vcpus : Option Int := none
  system_ram_gb : Option Int := none
  local_storage_tb : Option ℚ := none
  price_per_hour_usd : Option ℚ := none
deriving DecidableEq

/-- A `div.pricing_gpu-item` card as the Crusoe parser consumes it:
the text of `h4.pricing-item-heading` when present, the texts of the
`.pricing_tags-wr .pricing-tag` elements, and the texts of the
`div.pricing-rich p` paragraphs, in document order. -/
structure Card where
  name : Option String
  tags : List String
  pricingPs : List String
deriving DecidableEq

/-- Model of `_clean_text` in `crusoe.py`. -/
def clean_text (s : String) : String := pyCleanCollapseStrip s

/-- Name extraction of `parse_gpu_prices`: the cleaned heading text, or
`none` when the heading is absent or cleans to the empty (falsy) string. -/
def cardName (card : Card) : Option String :=
  match card.name with
  | none => none
  | some nm =>
    let g := clean_text nm
    if g = "" then none else some g

/-- VRAM extraction of `parse_gpu_prices`: first cleaned non-empty tag
matching `(\d+(?:\.\d+)?)\s*GB`, converted with `int(float(...))`. -/
def cardVram (tags : List String) : Option Int :=
  firstSome (fun t => (unitNumSearch "GB".data t.data).map pyIntOfFloat)
    ((tags.map clean_text).filter (fun t => t ≠ ""))

/-- Price extraction of `parse_gpu_prices`: first paragraph whose cleaned
text is non-empty and matches `\$\s*(\d+(?:\.\d+)?)`. -/
def cardPrice (ps : List String) : Option ℚ :=
  firstSome
    (fun p =>
      let txt := clean_text p
      if txt = "" then none else dollarNumSearch txt.data)
    ps

/-- Model of `parse_gpu_prices` in `crusoe.py`: one row per card with a
(cleaned) non-empty heading; the row is appended whether or not a VRAM tag
or a price paragraph was found. -/
def parse_gpu_prices (cards : List Card) : List GpuPriceRow :=
  cards.filterMap fun card =>
    (cardName card).map fun gpu_name =>
      { provider := "crusoe", product := gpu_name,
        vram_gb := cardVram card.tags,
        price_per_hour_usd := cardPrice card.pricingPs }

/-- Fieldnames of `write_csv` in `crusoe.py`. -/
def fieldnames : List String :=
  ["provider", "product", "gpu_count", "vram_gb", "vcpus", "system_ram_gb",
   "local_storage_tb", "price_per_hour_usd"]

/-- The values `csv.DictWriter.writerow` receives for one row, in
fieldname order (`ri` / `rq` render present scalars as `str` does). -/
def rowFields (ri : Int → String) (rq : ℚ → String) (r : GpuPriceRow) : List String :=
  [r.provider, r.product, optStr ri r.gpu_count, optStr ri r.vram_gb,
   optStr ri r.vcpus, optStr ri r.system_ram_gb, optStr rq r.local_storage_tb,
   optStr rq r.price_per_hour_usd]

/-- Model of `write_csv` in `crusoe.py`: the produced lines, header first. -/
def write_csv (ri : Int → String) (rq : ℚ → String) (rows : List GpuPriceRow) : List String :=
  csvJoin fieldnames :: rows.map (fun r => csvJoin (rowFields ri rq r))

end Crusoe

namespace Lambdalabs

/-- Row schema of `lambdalabs.py` (`PricingRow`). -/
structure PricingRow where
  provider : String := "lambda"
  product : String := ""
  gpu_count : Option Nat := none
  vram_gb : Option ℚ := none
  vcpus : Option Nat := none
  system_ram_gb : Option Nat := none
  local_storage_tb : Option ℚ := none
  price_per_hour_usd : Option ℚ := none
deriving DecidableEq

/-- One `tbody tr` of a Lambda pricing table: the text of its first `th`
when present, its `data-plan` attribute, and for every `th`/`td` cell in
order its optional `data-label` attribute and raw text. -/
structure Tr where
  thText : Option String
  dataPlan : Option String
  cells : List (Option String × String)
deriving DecidableEq

/-- One `table._pricingTable_z1nfw_13`: raw `thead th` texts and body rows. -/
structure Table where
  headerCells : List String
  trs : List Tr
deriving DecidableEq

/-- Lookup in the insertion-ordered association list modelling a dict. -/
def assocLookup : List (String × String) → String → Option String
  | [], _ => none
  | (k0, v0) :: rest, k => if k0 = k then some v0 else assocLookup rest k

/-- Python dict assignment `d[k] = v`: update in place, else append. -/
def assocSet : List (String × String) → String → String → List (String × String)
  | [], k, v => [(k, v)]
  | (k0, v0) :: rest, k, v =>
    if k0 = k then (k0, v) :: rest else (k0, v0) :: assocSet rest k v

/-- The collision rule of `parse_lambda_pricing`: an existing key with a
different value is kept and the new value stored under `key_idx`. -/
def addField (fields : List (String × String)) (key val : String) (idx : Nat) :
    List (String × String) :=
  match assocLookup fields key with
  | some v0 =>
    if v0 ≠ val then assocSet fields (key ++ "_" ++ toString idx) val
    else assocSet fields key val
  | none => assocSet fields key val

/-- Key chosen for a body cell: its `data-label` when truthy, else the
column header at the same index when present and non-empty, else `col_idx`. -/
def cellKey (headers : List String) (idx : Nat) (label : Option String) : String :=
  let fallback :=
    let h := headers.getD idx ""
    if h ≠ "" then h else "col_" ++ toString idx
  match label with
  | some k => if k = "" then fallback else k
  | none => fallback

/-- Build the `fields` dict of one row, indexing cells from `idx`. -/
def buildFieldsAux (headers : List String) :
    Nat → List (String × String) → List (Option String × String) → List (String × String)
  | _, fields, [] => fields
  | idx, fields, (label, raw) :: rest =>
    buildFieldsAux headers (idx + 1)
      (addField fields (cellKey headers idx label) (clean raw) idx) rest

/-- The `fields` dict of one body row of `parse_lambda_pricing`. -/
def buildFields (headers : List String) (cells : List (Option String × String)) :
    List (String × String) :=
  buildFieldsAux headers 0 [] cells

/-- Accumulator of `_extract_normalized_fields`. -/
structure NormAcc where
  gpu_count : Option Nat := none
  vram_gb : Option ℚ := none
  vcpus : Option Nat := none
  price : Option ℚ := none
deriving DecidableEq

/-- One step of the `for key, val in fields.items()` loop of
`_extract_normalized_fields`, with its `if`/`elif` chain. -/
def normStep (acc : NormAcc) (kv : String × String) : NormAcc :=
  let k := lowerStr kv.1
  let val := kv.2
  if (strContains k "price" || strContains k "cost") && acc.price.isNone then
    { acc with price := parse_float (some val) }
  else if (strContains k "vram" || strContains k "memory") && acc.vram_gb.isNone
      && strContains (lowerStr val) "gb" then
    { acc with vram_gb := extract_vram_gb (some val) }
  else if (strContains k "vcpu" || strContains k "cpu") && acc.vcpus.isNone then
    { acc with vcpus := extract_int (some val) }
  else if (strContains k "gpu" && strContains k "count") && acc.gpu_count.isNone then
    { acc with gpu_count := extract_int (some val) }
  else acc

/-- Model of `_extract_normalized_fields` in `lambdalabs.py` (the
`system_ram_gb` slot is never assigned by the source and stays `None`). -/
def extract_normalized_fields (plan_text : Option String)
    (fields : List (String × String)) : String × NormAcc :=
  let product :=
    match plan_text with
    | some t => if t = "" then "Unknown" else t
    | none => "Unknown"
  (product, fields.foldl normStep {})

/-- Plan text of one body row: the cleaned `th` text when truthy, else the
`data-plan` attribute. -/
def planTextOf (tr : Tr) : Option String :=
  match tr.thText with
  | some t =>
    let c := clean t
    if c = "" then tr.dataPlan else some c
  | none => tr.dataPlan

/-- Row built from one `tbody tr` by `parse_lambda_pricing`. -/
def rowOfTr (headers : List String) (tr : Tr) : PricingRow :=
  let pn := extract_normalized_fields (planTextOf tr) (buildFields headers tr.cells)
  { product := pn.1, gpu_count := pn.2.gpu_count, vram_gb := pn.2.vram_gb,
    vcpus := pn.2.vcpus, price_per_hour_usd := pn.2.price }

/-- Model of `parse_lambda_pricing` in `lambdalabs.py`: every body row of
every pricing table yields exactly one `PricingRow`, appended in document
order (the section title and tab label the source computes are not used in
the rows and are omitted). -/
def parse_lambda_pricing (tables : List Table) : List PricingRow :=
  tables.flatMap fun table =>
    table.trs.map (rowOfTr (table.headerCells.map clean))

/-- Fieldnames of `write_csv` in `lambdalabs.py`. -/
def fieldnames : List String :=
  ["provider", "product", "gpu_count", "vram_gb", "vcpus", "system_ram_gb",
   "local_storage_tb", "price_per_hour_usd"]

/-- The values `csv.DictWriter.writerow` receives for one row. -/
def rowFields (rn : Nat → String) (rq : ℚ → String) (r : PricingRow) : List String :=
  [r.provider, r.product, optStr rn r.gpu_count, optStr rq r.vram_gb,
   optStr rn r.vcpus, optStr rn r.system_ram_gb, optStr rq r.local_storage_tb,
   optStr rq r.price_per_hour_usd]

/-- Model of `write_csv` in `lambdalabs.py`: the produced lines. -/
def write_csv (rn : Nat → String) (rq : ℚ → String) (rows : List PricingRow) : List String :=
  csvJoin fieldnames :: rows.map (fun r => csvJoin (rowFields rn rq r))

end Lambdalabs

namespace Coreweave

/-- Row schema of `coreweave.py` (`CoreWeaveGpuPriceRow`), including the
extra `raw_price` field. -/
structure CoreWeaveGpuPriceRow where
  provider : String
  product : String
  gpu_count : Option Int := none
  vram_gb : Option Int := none
  vcpus : Option Int := none
  system_ram_gb : Option Int := none
  local_storage_tb : Option ℚ := none
  price_per_hour_usd : Option ℚ := none
  raw_price : Option String := none
deriving DecidableEq

/-- The `div.table-grid` inside one candidate row: the text of
`h3.table-model-name` when present, and the raw texts of the
`:scope > div.table-v2-cell` children in order. -/
structure Grid where
  modelName : Option String
  cells : List String
deriving DecidableEq

/-- A candidate from `soup.select` (the strict `kubernetes-gpu-pricing`
selector, or the looser `div.table-row-v2.w-dyn-item` fallback when the
strict one is empty); `none` stands for a candidate without a
`div.table-grid`.  The selection only chooses which candidates exist, so
the parser is modelled on the resulting candidate list. -/
def Candidate : Type := Option Grid

/-- The `gpu_keywords` tuple of `parse_coreweave_gpu_pricing`. -/
def gpu_keywords : List String :=
  ["nvidia", "a100", "h100", "h200", "l40", "l4", "rtx", "blackwell", "gb200", "gb300"]

/-- The keyword test `any(k in product.lower() for k in gpu_keywords)`. -/
def hasGpuKeyword (product : String) : Bool :=
  gpu_keywords.any (fun k => strContains (lowerStr product) k)

/-- Truthiness of an `Optional[int]` in Python: `None` and `0` are falsy. -/
def optIntTruthy : Option Int → Bool
  | none => false
  | some n => n ≠ 0

/-- The candidate row built (before the final gate) by
`parse_coreweave_gpu_pricing` from one `div.table-grid`: `none` on an
empty product name, fewer than two cells, no `$`-bearing cell text, or an
unparseable price. -/
def rowOfGrid (grid : Grid) : Option CoreWeaveGpuPriceRow :=
  let product := match grid.modelName with | some t => clean_text t | none => ""
  if product = "" then none
  else if grid.cells.length < 2 then none
  else
    let cell_texts := (grid.cells.map clean_text).filter (fun t => t ≠ "")
    match firstSome (fun txt => if strContains txt "$" then some txt else none)
        cell_texts.reverse with
    | none => none
    | some raw =>
      match parse_float raw with
      | none => none
      | some price =>
        let gpu_count :=
          if 1 < cell_texts.length then parse_int (cell_texts.getD 1 "") else none
        let vram_gb :=
          if 2 < cell_texts.length then parse_int (cell_texts.getD 2 "") else none
        let vcpus :=
          if 3 < cell_texts.length then parse_int (cell_texts.getD 3 "") else none
        let system_ram_gb :=
          if 4 < cell_texts.length then parse_int (cell_texts.getD 4 "") else none
        let local_storage_tb :=
          if 5 < cell_texts.length then
            pyFloatFull ⟨(cell_texts.getD 5 "").data.filter (fun c => c ≠ ',')⟩
          else none
        some { provider := "coreweave", product := product, gpu_count := gpu_count,
               vram_gb := vram_gb, vcpus := vcpus, system_ram_gb := system_ram_gb,
               local_storage_tb := local_storage_tb, price_per_hour_usd := some price,
               raw_price := some raw }

/-- The final heuristic gate of `parse_coreweave_gpu_pricing`:
`any(k in product.lower() for k in gpu_keywords) or
(row_obj.gpu_count and row_obj.vram_gb)`. -/
def gateKeep (row : CoreWeaveGpuPriceRow) : Bool :=
  hasGpuKeyword row.product || (optIntTruthy row.gpu_count && optIntTruthy row.vram_gb)

/-- Model of `parse_coreweave_gpu_pricing` in `coreweave.py` applied to
the selected candidate rows. -/
def parse_coreweave_gpu_pricing (cands : List (Option Grid)) : List CoreWeaveGpuPriceRow :=
  cands.filterMap fun cand =>
    match cand with
    | none => none
    | some grid =>
      match rowOfGrid grid with
      | none => none
      | some row => if gateKeep row then some row else none

/-- Fieldnames of `write_csv` in `coreweave.py`: the header-only branch
lists them explicitly, and the non-empty branch takes `rows[0].keys()`,
which for rows produced by `asdict` is the same nine-field list — both
include `raw_price`. -/
def fieldnames : List String :=
  ["provider", "product", "gpu_count", "vram_gb", "vcpus", "system_ram_gb",
   "local_storage_tb", "price_per_hour_usd", "raw_price"]

/-- The values `csv.DictWriter.writerow` receives for one row. -/
def rowFields (ri : Int → String) (rq : ℚ → String) (r : CoreWeaveGpuPriceRow) :
    List String :=
  [r.provider, r.product, optStr ri r.gpu_count, optStr ri r.vram_gb,
   optStr ri r.vcpus, optStr ri r.system_ram_gb, optStr rq r.local_storage_tb,
   optStr rq r.price_per_hour_usd, optStr id r.raw_price]

/-- Model of `write_csv` in `coreweave.py`: the produced lines. -/
def write_csv (ri : Int → String) (rq : ℚ → String) (rows : List CoreWeaveGpuPriceRow) :
    List String :=
  match rows with
  | [] => [csvJoin fieldnames]
  | _ => csvJoin fieldnames :: rows.map (fun r => csvJoin (rowFields ri rq r))

/-- Synthetic document for the domain-gate claim: one true GPU row and one
priced non-GPU decoy row (a name without a GPU-model token, a price cell,
and no numeric count or VRAM columns). -/
def synthDoc : List (Option Grid) :=
  [some ⟨some "NVIDIA H100", ["NVIDIA H100", "8", "80", "128", "1024", "7.68", "$49.24"]⟩,
   some ⟨some "CPU Epyc Milan", ["CPU Epyc Milan", "$1.50"]⟩]

/-- The single row the parser keeps from `synthDoc`. -/
def synthTrueRow : CoreWeaveGpuPriceRow :=
  { provider := "coreweave", product := "NVIDIA H100", gpu_count := some 8,
    vram_gb := some 80, vcpus := some 128, system_ram_gb := some 1024,
    local_storage_tb := some (mkRat 768 100), price_per_hour_usd := some (mkRat 4924 100),
    raw_price := some "$49.24" }

end Coreweave

namespace Denvr

/-- Row schema of `denvr.py` (`DenvrGpuRow`). -/
structure DenvrGpuRow where
  provider : String := "denvr"
  product : String := ""
  gpu_count : Option Int := none
  vram_gb : Option ℚ := none
  vcpus : Option Nat := none
  system_ram_gb : Option Nat := none
  local_storage_tb : Option ℚ := none
  price_per_hour_usd : Option ℚ := none
deriving DecidableEq

/-- One record of the `GPUInstances` collection in the Wix warmup JSON
(`rec_id` keys only fix the iteration order and non-dict entries are
skipped before any row logic, so records are modelled as a list).  The
`gpuCount` field may hold a JSON integer or a string. -/
structure DRec where
  title : Option String := none
  price : Option String := none
  gpuCount : Option (Int ⊕ String) := none
  gpuVram : Option String := none
  vCpUs : Option String := none
  memory : Option String := none
  localStorage : Option String := none
deriving DecidableEq

/-- Effective title: `rec.get("title") or ""` with the falsy-skip. -/
def recTitle (rec : DRec) : Option String :=
  match rec.title with
  | none => none
  | some t => if t = "" then none else some t

/-- Conversion of `gpuCount`: an `int` is kept as is, a truthy non-int is
converted with `_extract_int(str(...))`.  A falsy non-int (empty string)
stays falsy; it is modelled as `none`, which renders, compares and sorts
identically to the empty string the source carries along. -/
def recGpuCount : Option (Int ⊕ String) → Option Int
  | none => none
  | some (Sum.inl n) => some n
  | some (Sum.inr s) => if s = "" then none else (digitsSearch s.data).map Int.ofNat

/-- The `DenvrGpuRow` built from one record by `parse_denvr_pricing`. -/
def rowOfRec (title : String) (rec : DRec) : DenvrGpuRow :=
  { product := title,
    gpu_count := recGpuCount rec.gpuCount,
    vram_gb := extract_vram_gb rec.gpuVram,
    vcpus := extract_int rec.vCpUs,
    system_ram_gb := extract_int rec.memory,
    local_storage_tb := extract_storage_tb rec.localStorage,
    price_per_hour_usd := parse_float (some (rec.price.getD "")) }

/-- Deduplication key: `(title, gpu_count or 0, price)` with `price` the
raw string `rec.get("price") or ""`. -/
def recKey (title : String) (rec : DRec) : String × Int × String :=
  (title, (recGpuCount rec.gpuCount).getD 0, rec.price.getD "")

/-- The main loop of `parse_denvr_pricing`: title filter, row build,
first-seen dedup via the `seen` set, append order preserved. -/
def denvrLoop (seen : List (String × Int × String)) (acc : List DenvrGpuRow) :
    List DRec → List DenvrGpuRow
  | [] => acc
  | rec :: rest =>
    match recTitle rec with
    | none => denvrLoop seen acc rest
    | some title =>
      if recKey title rec ∈ seen then denvrLoop seen acc rest
      else denvrLoop (recKey title rec :: seen) (acc ++ [rowOfRec title rec]) rest

/-- The final `rows.sort(key=lambda r: (r.product, r.gpu_count or 0))`
comparison, as a boolean `≤` on rows (Python compares strings
lexicographically by code point, see `strLtB`). -/
def denvrKeyLe (a b : DenvrGpuRow) : Bool :=
  strLtB a.product.data b.product.data ||
    (a.product == b.product && decide (a.gpu_count.getD 0 ≤ b.gpu_count.getD 0))

/-- The row list `parse_denvr_pricing` returns for a non-empty collection:
the deduplicated rows, stably sorted by `(product, gpu_count or 0)`. -/
def denvrRows (records : List DRec) : List DenvrGpuRow :=
  stableSortBy denvrKeyLe (denvrLoop [] [] records)

/-- Model of `parse_denvr_pricing` in `denvr.py` from the located
`GPUInstances` records on (the earlier warmup-JSON locator failures are
upstream of the record list). -/
def parse_denvr_pricing (records : List DRec) : Except String (List DenvrGpuRow) :=
  if records.isEmpty then Except.error "GPUInstances collection found but empty."
  else Except.ok (denvrRows records)

/-- Candidate stream of the loop, spec-side: one `(key, row)` pair per
record with a truthy title, in encounter order. -/
def denvrCandidates (records : List DRec) : List ((String × Int × String) × DenvrGpuRow) :=
  records.filterMap fun rec =>
    (recTitle rec).map fun title => (recKey title rec, rowOfRec title rec)

/-- First-seen deduplication by key, spec-side: keep a pair only when its
key was not seen before. -/
def dedupFirstSeen (seen : List (String × Int × String)) :
    List ((String × Int × String) × DenvrGpuRow) →
      List ((String × Int × String) × DenvrGpuRow)
  | [] => []
  | (k, r) :: rest =>
    if k ∈ seen then dedupFirstSeen seen rest
    else (k, r) :: dedupFirstSeen (k :: seen) rest

end Denvr

namespace Nebius

/-- Row schema of `nebius.py` (`NebiusGpuRow`). -/
structure NebiusGpuRow where
  provider : String
  product : String
  gpu_count : Option Nat := none
  vram_gb : Option ℚ := none
  vcpus : Option Nat := none
  system_ram_gb : Option Nat := none
  local_storage_tb : Option ℚ := none
  price_per_hour_usd : Option ℚ := none
deriving DecidableEq

/-- One `div.pc-highlight-table-block` of the Nebius page: the raw text of
its title span when present, the raw head cell texts, and for each body
row the raw cell texts. -/
structure Block where
  title : Option String := none
  headCells : List String := []
  bodyRows : List (List String) := []
deriving DecidableEq

/-- Model of `_clean` in `nebius.py`. -/
def clean (s : String) : String := pyCleanStripCollapse s

/-- Model of `_parse_float` in `nebius.py`: `[-+]?\d*\.?\d+`. -/
def parse_float : Option String → Option ℚ
  | none => none
  | some s => if s = "" then none else signedNumSearch s.data

/-- Model of `_extract_int` in `nebius.py`. -/
def extract_int : Option String → Option Nat
  | none => none
  | some s => if s = "" then none else digitsSearch s.data

/-- The `vram_patterns` table of `_extract_vram_from_product`. -/
def vram_patterns : List (String × Int) :=
  [("GB200", 186), ("B200", 180), ("H200", 141), ("H100", 80), ("A100", 80),
   ("L40S", 48), ("L40", 48), ("RTX PRO", 48)]

/-- Model of `_extract_vram_from_product` in `nebius.py`: first matching
known pattern (case-insensitive containment), else the `GB` regex. -/
def extract_vram_from_product (product : String) : Option ℚ :=
  match firstSome
      (fun pv =>
        if strContains (upperStr product) (upperStr pv.1) then some (mkRat pv.2 1)
        else none)
      vram_patterns with
  | some v => some v
  | none => unitNumSearch "GB".data product.data

/-- Body of the Python list repr: quoted elements joined by `", "`. -/
def pyStrListReprAux : List String → String
  | [] => ""
  | [t] => "'" ++ t ++ "'"
  | t :: rest => "'" ++ t ++ "', " ++ pyStrListReprAux rest

/-- Python `str(list_of_str)`: the repr with single quotes. -/
def pyStrListRepr (l : List String) : String :=
  "[" ++ pyStrListReprAux l ++ "]"

/-- Python `f"{xs or 'none'}"` for a list of strings. -/
def pyListOrNone (l : List String) : String :=
  if l.isEmpty then "none" else pyStrListRepr l

/-- The titles actually present in the document, as the error path
collects them: the cleaned text of every title span that exists. -/
def foundTitles (doc : List Block) : List String :=
  doc.filterMap (fun b => b.title.map clean)

/-- The error message raised when no block carries the requested title. -/
def notFoundMsg (tableTitle : String) (doc : List Block) : String :=
  "Could not find table titled '" ++ tableTitle ++ "'. Tables found: " ++
    pyListOrNone (foundTitles doc)

/-- One body row of the matched block: needs at least four cells and a
truthy item and price text. -/
def rowOfCells (cellsRaw : List String) : Option NebiusGpuRow :=
  let cells := cellsRaw.map clean
  if cells.length < 4 then none
  else
    let item := cells.getD 0 ""
    let vcpus_str := cells.getD 1 ""
    let ram_gb_str := cells.getD 2 ""
    let price := cells.getD 3 ""
    if item = "" || price = "" then none
    else
      some { provider := "nebius", product := item,
             vram_gb := extract_vram_from_product item,
             vcpus := extract_int (some vcpus_str),
             system_ram_gb := extract_int (some ram_gb_str),
             price_per_hour_usd := parse_float (some price) }

/-- The block-selection test of `parse_nebius_pricing`:
`title_el and _clean(title_el.get_text()) == table_title`. -/
def matchesTitle (tableTitle : String) (b : Block) : Bool :=
  match b.title with
  | some t => clean t = tableTitle
  | none => false

/-- Model of `parse_nebius_pricing` in `nebius.py`: find the block whose
cleaned title equals `tableTitle`, else raise listing the titles found;
with a block, parse its body rows, raising when zero rows survive. -/
def parse_nebius_pricing (tableTitle : String) (doc : List Block) :
    Except String (List NebiusGpuRow) :=
  match doc.find? (matchesTitle tableTitle) with
  | none => Except.error (notFoundMsg tableTitle doc)
  | some block =>
    let headers := block.headCells.map clean
    let rows := block.bodyRows.filterMap rowOfCells
    if rows.isEmpty then
      Except.error ("Found '" ++ tableTitle ++ "' block but parsed 0 rows. Headers seen: " ++
        pyStrListRepr headers)
    else Except.ok rows

end Nebius

namespace Runpod

/-- Row schema of `runpod.py` (`RunPodGpuRow`). -/
structure RunPodGpuRow where
  provider : String := "runpod"
  product : String := ""
  gpu_count : Option Int := none
  vram_gb : Option ℚ := none
  vcpus : Option Int := none
  system_ram_gb : Option Int := none
  local_storage_tb : Option ℚ := none
  price_per_hour_usd : Option ℚ := none
deriving DecidableEq

/-- One `a.gpu-pricing-row` candidate: the model wrapper text when
present, for each `.gpu-pricing-row__tag` the texts of its inner `div`s,
and the `.cc-gpu-price` element's `data-secure-cloud-price` and
`data-community-cloud-price` attributes when the element exists. -/
structure Cand where
  modelText : Option String := none
  tagDivs : List (List String) := []
  priceEl : Option (Option String × Option String) := none
deriving DecidableEq

/-- Model of `_clean_text` in `runpod.py`. -/
def clean_text (s : String) : String := pyCleanStripCollapse s

/-- Model of `_to_float` in `runpod.py`: strip, then `_NUM_RE.search`. -/
def to_float : Option String → Option ℚ
  | none => none
  | some s =>
    let t := stripChars s.data
    if t.isEmpty then none else signedNumSearch t

/-- Model of `_parse_tags` in `runpod.py`: two or more non-empty parts
store `value` under `label`, a single part is stored under `tag_n`. -/
def parseTagsAux : List (String × String) → List (List String) → List (String × String)
  | out, [] => out
  | out, t :: rest =>
    let parts := (t.map clean_text).filter (fun p => p ≠ "")
    match parts with
    | v :: l :: _ => parseTagsAux (assocSet out l v) rest
    | [v] => parseTagsAux (assocSet out ("tag_" ++ toString (out.length + 1)) v) rest
    | [] => parseTagsAux out rest

/-- The tags dict of one candidate. -/
def parse_tags (tagDivs : List (List String)) : List (String × String) :=
  parseTagsAux [] tagDivs

/-- Accumulator of `_extract_normalized_fields` in `runpod.py`. -/
structure RPNorm where
  vram_gb : Option ℚ := none
  ram_gb : Option ℚ := none
  vcpus : Option ℚ := none
deriving DecidableEq

/-- One step of the normalisation loop (later matches overwrite). -/
def normStep (n : RPNorm) (kv : String × String) : RPNorm :=
  let k := lowerStr kv.1
  if strContains k "vram" && strContains k "gb" then
    { n with vram_gb := to_float (some kv.2) }
  else if strContains k "ram" && strContains k "gb" then
    { n with ram_gb := to_float (some kv.2) }
  else if strContains k "vcpus" || strContains k "vcpu" then
    { n with vcpus := to_float (some kv.2) }
  else n

/-- Model of `_extract_normalized_fields` in `runpod.py`. -/
def extract_normalized_fields (tags : List (String × String)) : RPNorm :=
  tags.foldl normStep {}

/-- Python `a or b` on `Optional[float]`: a present non-zero value wins,
otherwise the right operand is used. -/
def pyOrOpt (a b : Option ℚ) : Option ℚ :=
  match a with
  | none => b
  | some x => if x = 0 then b else some x

/-- The model name of a candidate: cleaned wrapper text, `""` when the
wrapper is absent. -/
def candName (c : Cand) : String :=
  match c.modelText with
  | some t => clean_text t
  | none => ""

/-- The secure-cloud price attribute of a candidate, parsed. -/
def securePrice (c : Cand) : Option ℚ :=
  match c.priceEl with
  | some pe => to_float pe.1
  | none => none

/-- The community-cloud price attribute of a candidate, parsed. -/
def communityPrice (c : Cand) : Option ℚ :=
  match c.priceEl with
  | some pe => to_float pe.2
  | none => none

/-- The row built from one candidate by `parse_runpod_pricing`. -/
def rowOfCand (c : Cand) : RunPodGpuRow :=
  let norm := extract_normalized_fields (parse_tags c.tagDivs)
  { product := candName c,
    vram_gb := norm.vram_gb,
    system_ram_gb :=
      match norm.ram_gb with
      | none => none
      | some q => if q = 0 then none else some (pyIntOfFloat q),
    vcpus := norm.vcpus.map pyIntOfFloat,
    price_per_hour_usd := pyOrOpt (securePrice c) (communityPrice c) }

/-- The row list of `parse_runpod_pricing`: one row per candidate whose
model name is truthy, in document order. -/
def runpodRows (cands : List Cand) : List RunPodGpuRow :=
  cands.filterMap fun c => if candName c = "" then none else some (rowOfCand c)

/-- Model of `parse_runpod_pricing` in `runpod.py` (raises when no row is
found). -/
def parse_runpod_pricing (cands : List Cand) : Except String (List RunPodGpuRow) :=
  let rows := runpodRows cands
  if rows.isEmpty then
    Except.error "No RunPod GPU rows found. The page structure may have changed or the HTML is incomplete."
  else Except.ok rows

end Runpod

namespace Merge

/-- A JSON row as `merge_json_files` inspects it: its optional `provider`
field (absent key is `none`, and a non-string value is abstracted by its
`str(...)` image), and a payload standing for the remaining fields. -/
structure MRow where
  provider : Option String := none
  payload : Nat := 0
deriving DecidableEq

/-- The truthiness test `"provider" in r and r["provider"]`. -/
def truthyProvider : Option String → Bool
  | none => false
  | some s => s ≠ ""

/-- `Path.stem` for a `*.json` filename: drop the `.json` suffix, except
that the bare dot-file `".json"` has no suffix for `pathlib` and is its
own stem. -/
def stem (n : String) : String := if n = ".json" then n else n.dropRight 5

/-- The `in_dir.glob("*.json")` filter: any name ending in `.json`
(`pathlib.Path.glob` matches dot-files too, so no hidden-file exclusion). -/
def globJson (n : String) : Bool := n.endsWith ".json"

/-- The skip test of the loop body: previously produced aggregates. -/
def skipAggregate (n : String) : Bool :=
  n = "all.json" || n = "meta.json" || n.endsWith "_meta.json"

/-- `set.add`: record a provider tag once (insertion order is irrelevant,
the result is sorted before being returned). -/
def insertNew (x : String) (l : List String) : List String :=
  if x ∈ l then l else l ++ [x]

/-- Tag a row: keep a truthy provider, else overwrite with the stem. -/
def tagRow (st : String) (r : MRow) : MRow :=
  if truthyProvider r.provider then r else { r with provider := some st }

/-- The provider value recorded in the set for one row. -/
def obs (st : String) (r : MRow) : String :=
  match r.provider with
  | some s => if s = "" then st else s
  | none => st

/-- Inner `for r in rows` loop: tag rows, collect provider values. -/
def rowLoop (st : String) (provs : List String) (merged : List MRow) :
    List MRow → List MRow × List String
  | [] => (merged, provs)
  | r :: rest =>
    if truthyProvider r.provider then
      rowLoop st (insertNew (r.provider.getD "") provs) (merged ++ [r]) rest
    else
      rowLoop st (insertNew st provs) (merged ++ [{ r with provider := some st }]) rest

/-- Outer `for p in sorted(...)` loop of `merge_json_files`. -/
def fileLoop (merged : List MRow) (provs : List String) (srcs : List String) :
    List (String × List MRow) → List MRow × List String × List String
  | [] => (merged, provs, srcs)
  | (n, rows) :: rest =>
    if skipAggregate n then fileLoop merged provs srcs rest
    else
      let mp := rowLoop (stem n) provs merged rows
      fileLoop mp.1 mp.2 (srcs ++ [n]) rest

/-- Lexicographic filename order used by `sorted(in_dir.glob("*.json"))`
within one directory. -/
def fileLe (a b : String × List MRow) : Bool := decide (a.1 ≤ b.1)

/-- The files in processing order: the `*.json` entries sorted by name. -/
def sortFiles (files : List (String × List MRow)) : List (String × List MRow) :=
  stableSortBy fileLe (files.filter (fun f => globJson f.1))

/-- Ascending sort of provider names (`sorted(providers)`). -/
def sortStrings (l : List String) : List String :=
  l.insertionSort (fun a b => a ≤ b)

/-- Model of `merge_json_files` in `merge_all_prices.py`: the directory is
a finite map from filename to row list, given as an association list. -/
def merge_json_files (files : List (String × List MRow)) :
    List MRow × List String × List String :=
  let res := fileLoop [] [] [] (sortFiles files)
  (res.1, sortStrings res.2.1, res.2.2)

/-- Modelled from the spec sentence for claim comparison: enumerate the
sources in lexicographic name order, drop aggregate artifacts, concatenate
the tagged rows in source order, return the sorted distinct provider
values observed over all rows and the consumed source names. -/
def spec_merge_json_files (files : List (String × List MRow)) :
    List MRow × List String × List String :=
  let kept := (sortFiles files).filter (fun f => !skipAggregate f.1)
  let merged := kept.flatMap (fun f => f.2.map (tagRow (stem f.1)))
  (merged, sortStrings (merged.filterMap MRow.provider).dedup, kept.map (fun f => f.1))

end Merge

/-! Helper lemmas about the primitives. -/

theorem mem_of_mem_dropWhile {p : Char → Bool} {l : List Char} {x : Char}
    (hx : x ∈ l.dropWhile p) : x ∈ l :=
  (List.dropWhile_suffix p).subset hx

theorem mem_of_mem_stripChars {l : List Char} {x : Char} (hx : x ∈ stripChars l) : x ∈ l := by
  unfold stripChars at hx
  rw [List.mem_reverse] at hx
  have h1 := mem_of_mem_dropWhile hx
  rw [List.mem_reverse] at h1
  exact mem_of_mem_dropWhile h1

theorem mem_of_mem_collapseAux {x : Char} :
    ∀ (l : List Char) (b : Bool), x ∈ collapseAux b l → x ∈ l ∨ x = ' ' := by
  intro l
  induction l with
  | nil => intro b h; simp [collapseAux] at h
  | cons c cs ih =>
    intro b h
    cases b with
    | true =>
      have hstep : collapseAux true (c :: cs) =
          if pyIsSpace c then collapseAux true cs else c :: collapseAux false cs := rfl
      rw [hstep] at h
      by_cases hc : pyIsSpace c
      · rw [if_pos hc] at h
        rcases ih true h with h1 | h1
        · exact Or.inl (List.mem_cons_of_mem _ h1)
        · exact Or.inr h1
      · rw [if_neg hc] at h
        rcases List.mem_cons.mp h with h1 | h1
        · exact Or.inl (by simp [h1])
        · rcases ih false h1 with h2 | h2
          · exact Or.inl (List.mem_cons_of_mem _ h2)
          · exact Or.inr h2
    | false =>
      have hstep : collapseAux false (c :: cs) =
          if pyIsSpace c then ' ' :: collapseAux true cs else c :: collapseAux false cs := rfl
      rw [hstep] at h
      by_cases hc : pyIsSpace c
      · rw [if_pos hc] at h
        rcases List.mem_cons.mp h with h1 | h1
        · exact Or.inr h1
        · rcases ih true h1 with h2 | h2
          · exact Or.inl (List.mem_cons_of_mem _ h2)
          · exact Or.inr h2
      · rw [if_neg hc] at h
        rcases List.mem_cons.mp h with h1 | h1
        · exact Or.inl (by simp [h1])
        · rcases ih false h1 with h2 | h2
          · exact Or.inl (List.mem_cons_of_mem _ h2)
          · exact Or.inr h2

theorem no_digit_of_cleanSC {s : String} (h : ∀ c ∈ s.data, c.isDigit = false) :
    ∀ c ∈ (pyCleanStripCollapse s).data, c.isDigit = false := by
  intro c hc
  have hc' : c ∈ collapseWs (stripChars s.data) := hc
  rcases mem_of_mem_collapseAux _ _ hc' with h1 | h1
  · exact h c (mem_of_mem_stripChars h1)
  · subst h1; decide

theorem numAt_eq_none_of_no_digit {l : List Char} (h : ∀ c ∈ l, c.isDigit = false) :
    numAt l = none := by
  cases l with
  | nil => rfl
  | cons c cs =>
    have hc : c.isDigit = false := h c (List.mem_cons_self c cs)
    simp [numAt, List.takeWhile_cons, hc]

theorem price_re_search_eq_none_of_no_digit :
    ∀ l : List Char, (∀ c ∈ l, c.isDigit = false) → Coreweave.price_re_search l = none := by
  intro l
  induction l with
  | nil => intro _; rfl
  | cons c cs ih =>
    intro h
    have hsub : ∀ x ∈ ((if c = '$' then cs else c :: cs).dropWhile pyIsSpace),
        x.isDigit = false := by
      intro x hx
      have hx1 := mem_of_mem_dropWhile hx
      by_cases hc : c = '$'
      · rw [if_pos hc] at hx1
        exact h x (List.mem_cons_of_mem _ hx1)
      · rw [if_neg hc] at hx1
        exact h x hx1
    simp only [Coreweave.price_re_search, numAt_eq_none_of_no_digit hsub]
    exact ih (fun x hx => h x (List.mem_cons_of_mem _ hx))

theorem dollarNumSearch_eq_none_of_no_digit :
    ∀ l : List Char, (∀ c ∈ l, c.isDigit = false) → dollarNumSearch l = none := by
  intro l
  induction l with
  | nil => intro _; rfl
  | cons c cs ih =>
    intro h
    have htail := fun x hx => h x (List.mem_cons_of_mem _ hx)
    by_cases hc : c = '$'
    · have hsub : ∀ x ∈ cs.dropWhile pyIsSpace, x.isDigit = false :=
        fun x hx => htail x (mem_of_mem_dropWhile hx)
      simp only [dollarNumSearch, hc, if_true, numAt_eq_none_of_no_digit hsub]
      exact ih htail
    · simp only [dollarNumSearch, hc, if_false]
      exact ih htail

theorem digitsSearch_eq_none_of_no_digit :
    ∀ l : List Char, (∀ c ∈ l, c.isDigit = false) → digitsSearch l = none := by
  intro l
  induction l with
  | nil => intro _; rfl
  | cons c cs ih =>
    intro h
    have hc : c.isDigit = false := h c (List.mem_cons_self c cs)
    simp only [digitsSearch, hc, Bool.false_eq_true, if_false]
    exact ih (fun x hx => h x (List.mem_cons_of_mem _ hx))

/-! Claim C3: case behaviour of the measurement-with-unit extraction. -/

/-- C3 counterexample: the spec says the unit marker is matched
case-insensitively, so that `"141 gb"` yields `141.0`; the compiled
pattern `(\d+(?:\.\d+)?)\s*GB` has no `re.IGNORECASE` flag, and the
lower-case input yields no value in both cited extractors. -/
theorem c3_lowercase_unit_yields_none :
    Lambdalabs.extract_vram_gb (some "141 gb") = none ∧
    Denvr.extract_vram_gb (some "141 gb") = none := by
  decide

/-- C3 amended: the measurement-with-unit extraction used by the providers
tolerates intervening whitespace but is case-SENSITIVE on the unit marker:
`"141GB"` and `"141 GB"` yield `141.0` while `"141 gb"` yields no value —
for the Lambda and Denvr `_extract_vram_gb` helpers and for the inline
VRAM-tag extraction of the Crusoe `parse_gpu_prices`. -/
theorem c3_vram_unit_case_sensitive :
    Lambdalabs.extract_vram_gb (some "141GB") = some 141 ∧
    Lambdalabs.extract_vram_gb (some "141 GB") = some 141 ∧
    Lambdalabs.extract_vram_gb (some "141 gb") = none ∧
    Denvr.extract_vram_gb (some "141GB") = some 141 ∧
    Denvr.extract_vram_gb (some "141 GB") = some 141 ∧
    Denvr.extract_vram_gb (some "141 gb") = none ∧
    Crusoe.parse_gpu_prices [⟨some "H200", ["141 GB"], []⟩] =
      [{ provider := "crusoe", product := "H200", vram_gb := some 141 }] ∧
    Crusoe.parse_gpu_prices [⟨some "H200", ["141 gb"], []⟩] =
      [{ provider := "crusoe", product := "H200", vram_gb := none }] := by
  decide

/-! Claim C4: the currency-amount extractors. -/

/-- C4 counterexample: the spec says the currency symbol is optional, so
that `"1.25 / GPU"` yields `1.25`; the Denvr `_parse_float` pattern
`\$\s*(\d+(?:\.\d+)?)` requires the dollar sign, and the symbol-free input
yields no value there. -/
theorem c4_denvr_requires_dollar_sign :
    Denvr.parse_float (some "1.25 / GPU") = none := by
  decide

/-- C4 amended: the CoreWeave `_parse_float` treats the currency symbol as
optional (`"1.25 / GPU"` → 1.25, `"$3.79"` → 3.79) and returns no value on
digit-free input; the Denvr `_parse_float` requires the dollar sign
(`"$1.25 / GPU"` → 1.25 but `"1.25 / GPU"` → no value) and likewise
returns no value on digit-free input. -/
theorem c4_currency_amount_extractors :
    (∀ s : String, (∀ c ∈ s.data, c.isDigit = false) →
      Coreweave.parse_float s = none ∧ Denvr.parse_float (some s) = none) ∧
    Coreweave.parse_float "1.25 / GPU" = some (mkRat 5 4) ∧
    Coreweave.parse_float "$3.79" = some (mkRat 379 100) ∧
    Denvr.parse_float (some "$1.25 / GPU") = some (mkRat 5 4) ∧
    Denvr.parse_float (some "1.25 / GPU") = none := by
  refine ⟨fun s h => ⟨?_, ?_⟩, by decide, by decide, by decide, by decide⟩
  · exact price_re_search_eq_none_of_no_digit _ (no_digit_of_cleanSC h)
  · simp only [Denvr.parse_float]
    by_cases hs : s = ""
    · rw [if_pos hs]
    · rw [if_neg hs]
      exact dollarNumSearch_eq_none_of_no_digit _ h

/-- C4 witness: the amended theorem applied at the concrete digit-free
input `"price unavailable"`. -/
theorem c4_currency_amount_extractors_witness :
    Coreweave.parse_float "price unavailable" = none ∧
    Denvr.parse_float (some "price unavailable") = none :=
  c4_currency_amount_extractors.1 "price unavailable" (by decide)

/-! Claim C5: the integer extractors. -/

/-- C5 counterexample: the spec says the integer extractor locates the
first digit run wherever it occurs, so that `"4x 7.6TB"` yields `4` for
both variants; the CoreWeave `_INT_RE` is anchored
(`^\s*([0-9][0-9,]*)\s*$`), and `_parse_int("4x 7.6TB")` yields no value. -/
theorem c5_coreweave_parse_int_anchored :
    Coreweave.parse_int "4x 7.6TB" = none := by
  decide

/-- C5 amended: the Denvr `_extract_int` locates the first digit run
anywhere (`"4x 7.6TB"` → 4, `"160"` → 160) but does not strip grouping
separators (`"1,234"` → 1); the CoreWeave `_parse_int` accepts only a
string that is entirely one comma-grouped integer with optional
surrounding whitespace, strips the commas (`"160"` → 160,
`" 1,234 "` → 1234), and yields no value otherwise (`"4x 7.6TB"` → none);
both yield no value on digit-free input. -/
theorem c5_integer_extractors :
    (∀ s : String, (∀ c ∈ s.data, c.isDigit = false) →
      Denvr.extract_int (some s) = none) ∧
    Denvr.extract_int (some "4x 7.6TB") = some 4 ∧
    Denvr.extract_int (some "160") = some 160 ∧
    Denvr.extract_int (some "1,234") = some 1 ∧
    Coreweave.parse_int "160" = some 160 ∧
    Coreweave.parse_int " 1,234 " = some 1234 ∧
    Coreweave.parse_int "4x 7.6TB" = none ∧
    Coreweave.parse_int "abc" = none := by
  refine ⟨fun s h => ?_, by decide, by decide, by decide, by decide, by decide,
    by decide, by decide⟩
  simp only [Denvr.extract_int]
  by_cases hs : s = ""
  · rw [if_pos hs]
  · rw [if_neg hs]
    exact digitsSearch_eq_none_of_no_digit _ h

/-- C5 witness: the amended theorem applied at the concrete digit-free
input `"no digits here"`. -/
theorem c5_integer_extractors_witness :
    Denvr.extract_int (some "no digits here") = none :=
  c5_integer_extractors.1 "no digits here" (by decide)

/-! Claim C1: are rows without an extractable price excluded? -/

theorem length_filterMap_isSome {α β : Type} (f : α → Option β) :
    ∀ l : List α, (l.filterMap f).length = (l.filter (fun a => (f a).isSome)).length := by
  intro l
  induction l with
  | nil => rfl
  | cons a as ih =>
    cases hf : f a with
    | none => simp [List.filterMap_cons, List.filter_cons, hf, ih]
    | some b => simp [List.filterMap_cons, List.filter_cons, hf, ih]

/-- C1 counterexample: the spec says a candidate whose name extracts but
whose price does not is excluded from the output; on a Crusoe card with a
heading and no price paragraph, and on a Lambda body row whose price cell
has no numeral, both parsers emit the row with a null
`price_per_hour_usd`. -/
theorem c1_null_price_rows_emitted :
    Crusoe.parse_gpu_prices [⟨some "NVIDIA H200", ["141GB"], ["contact sales"]⟩] =
      [{ provider := "crusoe", product := "NVIDIA H200", vram_gb := some 141,
         price_per_hour_usd := none }] ∧
    Lambdalabs.parse_lambda_pricing
      [⟨["GPU", "Price"], [⟨some "NVIDIA H100", none, [(some "Price", "contact us")]⟩]⟩] =
      [{ product := "NVIDIA H100" }] := by
  decide

/-- C1 amended: neither parser filters on price.  Crusoe emits exactly one
row per card with a (cleaned) non-empty heading and Lambda exactly one row
per table body row, price or no price; the Crusoe row carries whatever the
VRAM and price extractions produced, `none` included. -/
theorem c1_rows_emitted_regardless_of_price :
    (∀ cards : List Crusoe.Card,
      (Crusoe.parse_gpu_prices cards).length =
        (cards.filter (fun c => (Crusoe.cardName c).isSome)).length) ∧
    (∀ tables : List Lambdalabs.Table,
      (Lambdalabs.parse_lambda_pricing tables).length =
        (tables.map (fun t => t.trs.length)).sum) ∧
    (∀ (card : Crusoe.Card) (nm : String), Crusoe.cardName card = some nm →
      Crusoe.parse_gpu_prices [card] =
        [{ provider := "crusoe", product := nm, vram_gb := Crusoe.cardVram card.tags,
           price_per_hour_usd := Crusoe.cardPrice card.pricingPs }]) := by
  refine ⟨fun cards => ?_, fun tables => ?_, fun card nm h => ?_⟩
  · simp only [Crusoe.parse_gpu_prices]
    rw [length_filterMap_isSome]
    simp only [Option.isSome_map']
  · simp [Lambdalabs.parse_lambda_pricing, List.length_flatMap, Function.comp_def]
  · simp [Crusoe.parse_gpu_prices, h]

/-- C1 witness: the amended theorem applied to a concrete card with a
heading and nothing else, whose emitted row has a null price. -/
theorem c1_rows_emitted_regardless_of_price_witness :
    Crusoe.parse_gpu_prices [⟨some "NVIDIA B300", [], []⟩] =
      [{ provider := "crusoe", product := "NVIDIA B300",
         vram_gb := Crusoe.cardVram [], price_per_hour_usd := Crusoe.cardPrice [] }] :=
  c1_rows_emitted_regardless_of_price.2.2 ⟨some "NVIDIA B300", [], []⟩ "NVIDIA B300"
    (by decide)

/-! Claim C7: the CoreWeave domain gate. -/

/-- C7: a row kept by the CoreWeave parser always carries a known
GPU-model token in its product name or both a truthy GPU count and a
truthy VRAM value; and on the synthetic document with one true GPU row and
one priced non-GPU decoy, exactly the true row survives. -/
theorem c7_coreweave_domain_gate :
    (∀ (cands : List (Option Coreweave.Grid)) (r : Coreweave.CoreWeaveGpuPriceRow),
      r ∈ Coreweave.parse_coreweave_gpu_pricing cands →
        Coreweave.hasGpuKeyword r.product = true ∨
          (Coreweave.optIntTruthy r.gpu_count = true ∧
           Coreweave.optIntTruthy r.vram_gb = true)) ∧
    Coreweave.parse_coreweave_gpu_pricing Coreweave.synthDoc = [Coreweave.synthTrueRow] := by
  refine ⟨?_, by decide⟩
  intro cands r hr
  rcases List.mem_filterMap.mp hr with ⟨cand, -, hf⟩
  cases cand with
  | none => simp at hf
  | some grid =>
    have hf' : (match Coreweave.rowOfGrid grid with
        | none => none
        | some row => if Coreweave.gateKeep row then some row else none) = some r := hf
    cases hg : Coreweave.rowOfGrid grid with
    | none => rw [hg] at hf'; simp at hf'
    | some row =>
      rw [hg] at hf'
      have hf2 : (if Coreweave.gateKeep row then some row else none) = some r := hf'
      by_cases hk : Coreweave.gateKeep row = true
      · rw [if_pos hk] at hf2
        have hrow := Option.some.inj hf2
        subst hrow
        unfold Coreweave.gateKeep at hk
        have hk' : Coreweave.hasGpuKeyword row.product = true ∨
            (Coreweave.optIntTruthy row.gpu_count = true ∧
             Coreweave.optIntTruthy row.vram_gb = true) := by
          simpa using hk
        exact hk'
      · rw [if_neg hk] at hf2
        simp at hf2

/-- C7 witness: the gate property applied to the surviving row of the
synthetic document, with its membership discharged by evaluation. -/
theorem c7_coreweave_domain_gate_witness :
    Coreweave.hasGpuKeyword Coreweave.synthTrueRow.product = true ∨
      (Coreweave.optIntTruthy Coreweave.synthTrueRow.gpu_count = true ∧
       Coreweave.optIntTruthy Coreweave.synthTrueRow.vram_gb = true) :=
  c7_coreweave_domain_gate.1 Coreweave.synthDoc Coreweave.synthTrueRow (by decide)

/-! Claim C8: the CSV layouts. -/

/-- C8 counterexample: the spec says every per-provider `write_csv` emits
exactly the eight-column header; the CoreWeave writer emits a ninth
`raw_price` column, already on an empty row list. -/
theorem c8_coreweave_header_includes_raw_price :
    Coreweave.write_csv (fun _ => "") (fun _ => "") [] =
      ["provider,product,gpu_count,vram_gb,vcpus,system_ram_gb,local_storage_tb,price_per_hour_usd,raw_price"] ∧
    ("provider,product,gpu_count,vram_gb,vcpus,system_ram_gb,local_storage_tb,price_per_hour_usd,raw_price" : String) ≠
      "provider,product,gpu_count,vram_gb,vcpus,system_ram_gb,local_storage_tb,price_per_hour_usd" := by
  decide

/-- C8 amended: the Crusoe and Lambda writers emit exactly the
eight-column header followed by one line per row (header only on an empty
list), with the empty string in place of each absent optional field; the
CoreWeave writer has the same shape but appends a ninth `raw_price`
column. -/
theorem c8_write_csv_layout :
    (∀ (ri : Int → String) (rq : ℚ → String) (rows : List Crusoe.GpuPriceRow),
      Crusoe.write_csv ri rq rows =
        "provider,product,gpu_count,vram_gb,vcpus,system_ram_gb,local_storage_tb,price_per_hour_usd"
          :: rows.map (fun r => csvJoin (Crusoe.rowFields ri rq r))) ∧
    (∀ (rn : Nat → String) (rq : ℚ → String) (rows : List Lambdalabs.PricingRow),
      Lambdalabs.write_csv rn rq rows =
        "provider,product,gpu_count,vram_gb,vcpus,system_ram_gb,local_storage_tb,price_per_hour_usd"
          :: rows.map (fun r => csvJoin (Lambdalabs.rowFields rn rq r))) ∧
    (∀ (ri : Int → String) (rq : ℚ → String),
      csvJoin (Crusoe.rowFields ri rq { provider := "crusoe", product := "A100" }) =
        "crusoe,A100,,,,,,") ∧
    (∀ (ri : Int → String) (rq : ℚ → String) (rows : List Coreweave.CoreWeaveGpuPriceRow),
      Coreweave.write_csv ri rq rows =
        "provider,product,gpu_count,vram_gb,vcpus,system_ram_gb,local_storage_tb,price_per_hour_usd,raw_price"
          :: rows.map (fun r => csvJoin (Coreweave.rowFields ri rq r))) := by
  refine ⟨fun ri rq rows => ?_, fun rn rq rows => ?_, fun ri rq => rfl,
    fun ri rq rows => ?_⟩
  · simp only [Crusoe.write_csv]
    congr 1
  · simp only [Lambdalabs.write_csv]
    congr 1
  · cases rows with
    | nil => rfl
    | cons r rs =>
      simp only [Coreweave.write_csv]
      congr 1

/-! Claim C6: Denvr deduplication and output order. -/

theorem denvrLoop_eq :
    ∀ (recs : List Denvr.DRec) (seen : List (String × Int × String))
      (acc : List Denvr.DenvrGpuRow),
      Denvr.denvrLoop seen acc recs =
        acc ++ (Denvr.dedupFirstSeen seen (Denvr.denvrCandidates recs)).map Prod.snd := by
  intro recs
  induction recs with
  | nil =>
    intro seen acc
    simp [Denvr.denvrLoop, Denvr.denvrCandidates, Denvr.dedupFirstSeen]
  | cons rec rest ih =>
    intro seen acc
    cases ht : Denvr.recTitle rec with
    | none =>
      have hl : Denvr.denvrLoop seen acc (rec :: rest) = Denvr.denvrLoop seen acc rest := by
        simp only [Denvr.denvrLoop, ht]
      have hc : Denvr.denvrCandidates (rec :: rest) = Denvr.denvrCandidates rest := by
        simp [Denvr.denvrCandidates, List.filterMap_cons, ht]
      rw [hl, hc, ih]
    | some title =>
      have hc : Denvr.denvrCandidates (rec :: rest) =
          (Denvr.recKey title rec, Denvr.rowOfRec title rec) :: Denvr.denvrCandidates rest := by
        simp [Denvr.denvrCandidates, List.filterMap_cons, ht]
      by_cases hk : Denvr.recKey title rec ∈ seen
      · have hl : Denvr.denvrLoop seen acc (rec :: rest) = Denvr.denvrLoop seen acc rest := by
          simp only [Denvr.denvrLoop, ht, if_pos hk]
        rw [hl, hc, ih]
        simp only [Denvr.dedupFirstSeen, if_pos hk]
      · have hl : Denvr.denvrLoop seen acc (rec :: rest) =
            Denvr.denvrLoop (Denvr.recKey title rec :: seen)
              (acc ++ [Denvr.rowOfRec title rec]) rest := by
          simp only [Denvr.denvrLoop, ht, if_neg hk]
        rw [hl, hc, ih]
        simp only [Denvr.dedupFirstSeen, if_neg hk, List.map_cons, List.append_assoc,
          List.singleton_append]

theorem dedupFirstSeen_keys_nodup :
    ∀ (l : List ((String × Int × String) × Denvr.DenvrGpuRow))
      (seen : List (String × Int × String)),
      ((Denvr.dedupFirstSeen seen l).map Prod.fst).Nodup ∧
      ∀ k ∈ (Denvr.dedupFirstSeen seen l).map Prod.fst, k ∉ seen := by
  intro l
  induction l with
  | nil => intro seen; simp [Denvr.dedupFirstSeen]
  | cons p rest ih =>
    intro seen
    obtain ⟨k, r⟩ := p
    by_cases hk : k ∈ seen
    · simp only [Denvr.dedupFirstSeen, if_pos hk]
      exact ih seen
    · simp only [Denvr.dedupFirstSeen, if_neg hk, List.map_cons]
      refine ⟨List.nodup_cons.mpr ⟨?_, (ih (k :: seen)).1⟩, ?_⟩
      · intro hmem
        exact (ih (k :: seen)).2 k hmem (List.mem_cons_self k seen)
      · intro k' hk'
        rcases List.mem_cons.mp hk' with h1 | h1
        · subst h1; exact hk
        · intro hins
          exact (ih (k :: seen)).2 k' h1 (List.mem_cons_of_mem _ hins)

/-- C6 counterexample: the spec says the returned sequence preserves the
first-seen order of the surviving rows; with the records encountered in
the order `B`, `A`, the parser returns the rows sorted as `A`, `B`. -/
theorem c6_output_sorted_not_first_seen :
    (Denvr.denvrRows
        [{ title := some "B", price := some "$2" },
         { title := some "A", price := some "$1" }]).map
      Denvr.DenvrGpuRow.product = ["A", "B"] ∧
    (Denvr.denvrCandidates
        [{ title := some "B", price := some "$2" },
         { title := some "A", price := some "$1" }]).map
      (fun p => p.2.product) = ["B", "A"] ∧
    (["A", "B"] : List String) ≠ ["B", "A"] := by
  decide

/-- C6 amended: a repeated `(title, gpu_count, raw price)` triple yields
exactly one output row (the first occurrence's data, key-distinctness
below), and the returned sequence is the first-seen deduplicated candidate
sequence stably sorted by `(product, gpu_count or 0)` — not the encounter
order itself. -/
theorem c6_denvr_dedup_then_sort :
    (∀ recs : List Denvr.DRec,
      Denvr.denvrRows recs =
        stableSortBy Denvr.denvrKeyLe
          ((Denvr.dedupFirstSeen [] (Denvr.denvrCandidates recs)).map Prod.snd)) ∧
    (∀ recs : List Denvr.DRec,
      ((Denvr.dedupFirstSeen [] (Denvr.denvrCandidates recs)).map Prod.fst).Nodup) := by
  constructor
  · intro recs
    unfold Denvr.denvrRows
    rw [denvrLoop_eq]
    simp
  · intro recs
    exact (dedupFirstSeen_keys_nodup _ []).1

/-! Claim C9: the Nebius structural-anchor error. -/

theorem quoted_infix_reprAux :
    ∀ (l : List String) (s : String), s ∈ l →
      ("'" ++ s ++ "'").data <:+: (Nebius.pyStrListReprAux l).data := by
  intro l
  induction l with
  | nil => intro s hs; simp at hs
  | cons t rest ih =>
    intro s hs
    cases rest with
    | nil =>
      have hst : s = t := by simpa using hs
      subst hst
      exact List.infix_refl _
    | cons u rest2 =>
      rcases List.mem_cons.mp hs with h1 | h1
      · subst h1
        refine ⟨[], (", " ++ Nebius.pyStrListReprAux (u :: rest2)).data, ?_⟩
        show ("'" ++ s ++ "'").data ++ (", " ++ Nebius.pyStrListReprAux (u :: rest2)).data =
          (Nebius.pyStrListReprAux (s :: u :: rest2)).data
        simp [Nebius.pyStrListReprAux, String.data_append, List.append_assoc]
      · rcases ih s h1 with ⟨pre, post, heq⟩
        refine ⟨("'" ++ t ++ "', ").data ++ pre, post, ?_⟩
        show ("'" ++ t ++ "', ").data ++ pre ++ ("'" ++ s ++ "'").data ++ post =
          (Nebius.pyStrListReprAux (t :: u :: rest2)).data
        have hx : (Nebius.pyStrListReprAux (t :: u :: rest2)).data =
            ("'" ++ t ++ "', ").data ++ (Nebius.pyStrListReprAux (u :: rest2)).data := by
          simp [Nebius.pyStrListReprAux, String.data_append, List.append_assoc]
        rw [hx, ← heq]
        simp [List.append_assoc]

/-- C9: when no pricing table carries the requested title, the Nebius
parser fails with an error (never returns rows), the error message is the
one built from the titles actually found, and every found title occurs
verbatim (quoted) inside that message. -/
theorem c9_nebius_missing_table_error :
    ∀ (doc : List Nebius.Block) (t : String),
      (∀ b ∈ doc, Nebius.matchesTitle t b = false) →
      Nebius.parse_nebius_pricing t doc = Except.error (Nebius.notFoundMsg t doc) ∧
      ∀ s ∈ Nebius.foundTitles doc,
        ("'" ++ s ++ "'").data <:+: (Nebius.notFoundMsg t doc).data := by
  intro doc t h
  have hfind : doc.find? (Nebius.matchesTitle t) = none :=
    List.find?_eq_none.mpr (fun b hb => by simp [h b hb])
  constructor
  · simp only [Nebius.parse_nebius_pricing, hfind]
  · intro s hs
    have hne : (Nebius.foundTitles doc).isEmpty = false := by
      cases hl : Nebius.foundTitles doc with
      | nil => rw [hl] at hs; simp at hs
      | cons a as => rfl
    rcases quoted_infix_reprAux _ s hs with ⟨pre, post, heq⟩
    refine ⟨("Could not find table titled '" ++ t ++ "'. Tables found: ").data ++
      "[".data ++ pre, post ++ "]".data, ?_⟩
    have hmsg : (Nebius.notFoundMsg t doc).data =
        ("Could not find table titled '" ++ t ++ "'. Tables found: ").data ++
          ("[".data ++ ((Nebius.pyStrListReprAux (Nebius.foundTitles doc)).data ++ "]".data)) := by
      unfold Nebius.notFoundMsg Nebius.pyListOrNone Nebius.pyStrListRepr
      rw [hne]
      simp only [Bool.false_eq_true, if_false, String.data_append, List.append_assoc]
    rw [hmsg, ← heq]
    simp [List.append_assoc]

/-- C9 witness: the theorem applied to a concrete document carrying two
other tables and none with the requested title. -/
theorem c9_nebius_missing_table_error_witness :
    Nebius.parse_nebius_pricing "NVIDIA GPU Instances"
      [{ title := some "CPU Instances" }, { title := some "Storage" }] =
    Except.error (Nebius.notFoundMsg "NVIDIA GPU Instances"
      [{ title := some "CPU Instances" }, { title := some "Storage" }]) :=
  (c9_nebius_missing_table_error
    [{ title := some "CPU Instances" }, { title := some "Storage" }]
    "NVIDIA GPU Instances" (by decide)).1

/-! Claim C10: the RunPod price selection. -/

/-- C10: the emitted price is the parsed secure-cloud attribute when it
parses to a non-zero number and the parsed community-cloud attribute
otherwise (`secure_price or community_price`); a secure price of `0.0` or
an absent secure attribute falls back to the community price, and a
candidate with a non-empty model name is emitted even when both attributes
are absent or unparseable, with a null price. -/
theorem c10_runpod_price_fallback :
    (∀ (c : Runpod.Cand) (cs : List Runpod.Cand), Runpod.candName c ≠ "" →
      Runpod.runpodRows (c :: cs) = Runpod.rowOfCand c :: Runpod.runpodRows cs ∧
      (Runpod.rowOfCand c).price_per_hour_usd =
        Runpod.pyOrOpt (Runpod.securePrice c) (Runpod.communityPrice c)) ∧
    (∀ (c : Runpod.Cand) (cs : List Runpod.Cand), Runpod.candName c = "" →
      Runpod.runpodRows (c :: cs) = Runpod.runpodRows cs) ∧
    (Runpod.runpodRows [{ modelText := some "H100 PCIe",
                          priceEl := some (some "2.39", some "1.99") }]).map
      (fun r => r.price_per_hour_usd) = [some (mkRat 239 100)] ∧
    (Runpod.runpodRows [{ modelText := some "H100 PCIe",
                          priceEl := some (some "0.00", some "1.99") }]).map
      (fun r => r.price_per_hour_usd) = [some (mkRat 199 100)] ∧
    (Runpod.runpodRows [{ modelText := some "H100 PCIe",
                          priceEl := some (none, some "1.99") }]).map
      (fun r => r.price_per_hour_usd) = [some (mkRat 199 100)] ∧
    Runpod.runpodRows [{ modelText := some "A4000" }] = [{ product := "A4000" }] ∧
    (Runpod.runpodRows [{ modelText := some "A4000",
                          priceEl := some (some "N/A", some "soon") }]).map
      (fun r => r.price_per_hour_usd) = [none] := by
  refine ⟨fun c cs h => ⟨?_, rfl⟩, fun c cs h => ?_, by decide, by decide, by decide,
    by decide, by decide⟩
  · simp [Runpod.runpodRows, List.filterMap_cons, h]
  · simp [Runpod.runpodRows, List.filterMap_cons, h]

/-! Claim C2: `merge_json_files`. -/

theorem insertNew_mem {x y : String} {l : List String} :
    x ∈ Merge.insertNew y l ↔ x ∈ l ∨ x = y := by
  unfold Merge.insertNew
  by_cases h : y ∈ l
  · rw [if_pos h]
    constructor
    · exact Or.inl
    · rintro (h1 | rfl)
      · exact h1
      · exact h
  · rw [if_neg h]
    simp [List.mem_append]

theorem insertNew_nodup {y : String} {l : List String} (h : l.Nodup) :
    (Merge.insertNew y l).Nodup := by
  unfold Merge.insertNew
  by_cases hm : y ∈ l
  · rwa [if_pos hm]
  · rw [if_neg hm]
    simp [List.nodup_append, h, hm]

theorem tagRow_provider (st : String) (r : Merge.MRow) :
    (Merge.tagRow st r).provider = some (Merge.obs st r) := by
  obtain ⟨p, pl⟩ := r
  cases p with
  | none => simp [Merge.tagRow, Merge.obs, Merge.truthyProvider]
  | some s =>
    by_cases hs : s = ""
    · subst hs
      simp [Merge.tagRow, Merge.obs, Merge.truthyProvider]
    · simp [Merge.tagRow, Merge.obs, Merge.truthyProvider, hs]

theorem tagRow_truthy {st : String} {r : Merge.MRow}
    (h : Merge.truthyProvider r.provider = true) : Merge.tagRow st r = r := by
  unfold Merge.tagRow
  rw [if_pos h]

theorem tagRow_falsy {st : String} {r : Merge.MRow}
    (h : Merge.truthyProvider r.provider = false) :
    Merge.tagRow st r = { r with provider := some st } := by
  unfold Merge.tagRow
  rw [if_neg (by simp [h])]

theorem obs_truthy {st : String} {r : Merge.MRow}
    (h : Merge.truthyProvider r.provider = true) :
    Merge.obs st r = r.provider.getD "" := by
  obtain ⟨p, pl⟩ := r
  cases p with
  | none => simp [Merge.truthyProvider] at h
  | some s =>
    simp only [Merge.truthyProvider] at h
    have hs : s ≠ "" := by simpa using h
    simp [Merge.obs, hs]

theorem obs_falsy {st : String} {r : Merge.MRow}
    (h : Merge.truthyProvider r.provider = false) : Merge.obs st r = st := by
  obtain ⟨p, pl⟩ := r
  cases p with
  | none => simp [Merge.obs]
  | some s =>
    simp only [Merge.truthyProvider] at h
    have hs : s = "" := by simpa using h
    simp [Merge.obs, hs]

theorem rowLoop_eq (st : String) :
    ∀ (rows : List Merge.MRow) (provs : List String) (merged : List Merge.MRow),
      Merge.rowLoop st provs merged rows =
        (merged ++ rows.map (Merge.tagRow st),
         rows.foldl (fun p r => Merge.insertNew (Merge.obs st r) p) provs) := by
  intro rows
  induction rows with
  | nil => intro provs merged; simp [Merge.rowLoop]
  | cons r rest ih =>
    intro provs merged
    by_cases h : Merge.truthyProvider r.provider = true
    · have e1 : Merge.rowLoop st provs merged (r :: rest) =
          Merge.rowLoop st (Merge.insertNew (r.provider.getD "") provs)
            (merged ++ [r]) rest := by
        simp only [Merge.rowLoop, if_pos h]
      rw [e1, ih]
      simp [tagRow_truthy h, obs_truthy h, List.append_assoc]
    · have hb : Merge.truthyProvider r.provider = false := by
        revert h; cases Merge.truthyProvider r.provider <;> simp
      have e1 : Merge.rowLoop st provs merged (r :: rest) =
          Merge.rowLoop st (Merge.insertNew st provs)
            (merged ++ [{ r with provider := some st }]) rest := by
        simp only [Merge.rowLoop, if_neg h]
      rw [e1, ih]
      simp [tagRow_falsy hb, obs_falsy hb, List.append_assoc]

theorem fileLoop_eq :
    ∀ (files : List (String × List Merge.MRow)) (merged : List Merge.MRow)
      (provs srcs : List String),
      Merge.fileLoop merged provs srcs files =
        (merged ++ (files.filter (fun f => !Merge.skipAggregate f.1)).flatMap
            (fun f => f.2.map (Merge.tagRow (Merge.stem f.1))),
         (files.filter (fun f => !Merge.skipAggregate f.1)).foldl
            (fun p f =>
              f.2.foldl (fun q r => Merge.insertNew (Merge.obs (Merge.stem f.1) r) q) p)
            provs,
         srcs ++ (files.filter (fun f => !Merge.skipAggregate f.1)).map (fun f => f.1)) := by
  intro files
  induction files with
  | nil => intro merged provs srcs; simp [Merge.fileLoop]
  | cons f rest ih =>
    intro merged provs srcs
    obtain ⟨n, rows⟩ := f
    by_cases h : Merge.skipAggregate n = true
    · have e1 : Merge.fileLoop merged provs srcs ((n, rows) :: rest) =
          Merge.fileLoop merged provs srcs rest := by
        simp only [Merge.fileLoop, if_pos h]
      rw [e1, ih]
      simp [List.filter_cons, h]
    · have hb : Merge.skipAggregate n = false := by
        revert h; cases Merge.skipAggregate n <;> simp
      have e1 : Merge.fileLoop merged provs srcs ((n, rows) :: rest) =
          Merge.fileLoop (Merge.rowLoop (Merge.stem n) provs merged rows).1
            (Merge.rowLoop (Merge.stem n) provs merged rows).2 (srcs ++ [n]) rest := by
        simp only [Merge.fileLoop, if_neg h]
      rw [e1, ih, rowLoop_eq]
      simp [List.filter_cons, hb, List.flatMap_cons, List.append_assoc, List.foldl_cons]

theorem mem_rowfold (st : String) :
    ∀ (rows : List Merge.MRow) (p : List String) (x : String),
      (x ∈ rows.foldl (fun q r => Merge.insertNew (Merge.obs st r) q) p) ↔
        x ∈ p ∨ x ∈ rows.map (Merge.obs st) := by
  intro rows
  induction rows with
  | nil => intro p x; simp
  | cons r rest ih =>
    intro p x
    rw [List.foldl_cons, ih, insertNew_mem]
    simp [or_assoc, or_comm, or_left_comm]

theorem nodup_rowfold (st : String) :
    ∀ (rows : List Merge.MRow) (p : List String), p.Nodup →
      (rows.foldl (fun q r => Merge.insertNew (Merge.obs st r) q) p).Nodup := by
  intro rows
  induction rows with
  | nil => intro p hp; simpa using hp
  | cons r rest ih =>
    intro p hp
    rw [List.foldl_cons]
    exact ih _ (insertNew_nodup hp)

theorem mem_filefold :
    ∀ (files : List (String × List Merge.MRow)) (p : List String) (x : String),
      (x ∈ files.foldl
          (fun p f =>
            f.2.foldl (fun q r => Merge.insertNew (Merge.obs (Merge.stem f.1) r) q) p) p) ↔
        x ∈ p ∨ x ∈ files.flatMap (fun f => f.2.map (Merge.obs (Merge.stem f.1))) := by
  intro files
  induction files with
  | nil => intro p x; simp
  | cons f rest ih =>
    intro p x
    rw [List.foldl_cons, ih, mem_rowfold]
    simp [List.flatMap_cons, List.mem_append, or_assoc]

theorem nodup_filefold :
    ∀ (files : List (String × List Merge.MRow)) (p : List String), p.Nodup →
      (files.foldl
        (fun p f =>
          f.2.foldl (fun q r => Merge.insertNew (Merge.obs (Merge.stem f.1) r) q) p) p).Nodup := by
  intro files
  induction files with
  | nil => intro p hp; simpa using hp
  | cons f rest ih =>
    intro p hp
    rw [List.foldl_cons]
    exact ih _ (nodup_rowfold _ _ _ hp)

theorem filterMap_provider_map_tagRow (st : String) (rows : List Merge.MRow) :
    (rows.map (Merge.tagRow st)).filterMap Merge.MRow.provider = rows.map (Merge.obs st) := by
  induction rows with
  | nil => rfl
  | cons r rest ih =>
    simp [List.map_cons, List.filterMap_cons, tagRow_provider, ih]

theorem filterMap_provider_flatMap (kept : List (String × List Merge.MRow)) :
    (kept.flatMap (fun f => f.2.map (Merge.tagRow (Merge.stem f.1)))).filterMap
        Merge.MRow.provider =
      kept.flatMap (fun f => f.2.map (Merge.obs (Merge.stem f.1))) := by
  induction kept with
  | nil => rfl
  | cons f rest ih =>
    rw [List.flatMap_cons, List.flatMap_cons, List.filterMap_append,
      filterMap_provider_map_tagRow, ih]

theorem sortStrings_eq_of_mem_iff {A B : List String} (hA : A.Nodup) (hB : B.Nodup)
    (h : ∀ x, x ∈ A ↔ x ∈ B) : Merge.sortStrings A = Merge.sortStrings B := by
  have hperm : List.Perm A B := (List.perm_ext_iff_of_nodup hA hB).mpr h
  exact List.eq_of_perm_of_sorted
    (((List.perm_insertionSort _ A).trans hperm).trans (List.perm_insertionSort _ B).symm)
    (List.sorted_insertionSort _ A) (List.sorted_insertionSort _ B)

/-- C2: `merge_json_files` behaves exactly as the spec describes it —
enumerate the `*.json` files in lexicographic name order, skip `all.json`,
`meta.json` and `*_meta.json`, concatenate the rows tagging provider-less
rows with the file stem, and return the merged rows, the sorted distinct
provider values observed over all rows, and the consumed filenames in
processing order. -/
theorem c2_merge_json_files_spec :
    ∀ files : List (String × List Merge.MRow),
      Merge.merge_json_files files = Merge.spec_merge_json_files files := by
  intro files
  unfold Merge.merge_json_files Merge.spec_merge_json_files
  rw [fileLoop_eq]
  simp only [Prod.mk.injEq, List.nil_append]
  refine ⟨trivial, ?_, trivial⟩
  apply sortStrings_eq_of_mem_iff
  · exact nodup_filefold _ _ List.nodup_nil
  · exact List.nodup_dedup _
  · intro x
    rw [mem_filefold, List.mem_dedup, filterMap_provider_flatMap]
    simp

/-- C10 witness: the cons equation and price selection applied at a
concrete candidate with a non-zero secure price. -/
theorem c10_runpod_price_fallback_witness :
    Runpod.runpodRows [⟨some "RTX 4090", [], some (some "0.69", some "0.44")⟩] =
      Runpod.rowOfCand ⟨some "RTX 4090", [], some (some "0.69", some "0.44")⟩ ::
        Runpod.runpodRows [] ∧
    (Runpod.rowOfCand ⟨some "RTX 4090", [], some (some "0.69", some "0.44")⟩).price_per_hour_usd =
      Runpod.pyOrOpt (Runpod.securePrice ⟨some "RTX 4090", [], some (some "0.69", some "0.44")⟩)
        (Runpod.communityPrice ⟨some "RTX 4090", [], some (some "0.69", some "0.44")⟩) :=
  c10_runpod_price_fallback.1 ⟨some "RTX 4090", [], some (some "0.69", some "0.44")⟩ []
    (by decide)

end GpuPrice
